import Mathlib

/-!
Verification of the RekLog request-logging client (`src/index.js`).

The development shallowly embeds the `RekLog` class: JavaScript values are
modelled by the mutual inductive `JsVal`/`JsList`/`JsFields` (numbers as
integers plus a separate NaN constructor; object fields as an ordered list of
key/value pairs), JavaScript truthiness by `truthy`, and the `a || b`
defaulting idiom by `jsOr`.  `maskSensitiveData`, the constructor, `end`,
`sendLog` and the `middleware` response hook are each translated into a pure
Lean function over this model; the external collaborators (the `fetch`
transport, `JSON.parse`, the framework request object) enter as explicit
parameters.  A second, heap-based model of `maskSensitiveData` (`maskHVal`)
makes object identity explicit so that the no-mutation frame property can be
stated faithfully.
-/

set_option autoImplicit false

namespace RekLog

mutual
/-- A JavaScript value: `null`, `undefined`, `NaN`, booleans, (integer)
numbers, strings, arrays, and plain objects with an ordered field list. -/
inductive JsVal : Type where
  | vNull : JsVal
  | vUndefined : JsVal
  | vNaN : JsVal
  | vBool : Bool → JsVal
  | vNum : Int → JsVal
  | vStr : String → JsVal
  | vArr : JsList → JsVal
  | vObj : JsFields → JsVal

inductive JsList : Type where
  | nil : JsList
  | cons : JsVal → JsList → JsList

inductive JsFields : Type where
  | nil : JsFields
  | cons : String → JsVal → JsFields → JsFields
end

/-- JavaScript truthiness: `null`, `undefined`, `NaN`, `false`, `0` and `""`
are falsy; every other value, in particular every array and object, is
truthy. -/
def truthy : JsVal → Bool
  | .vNull => false
  | .vUndefined => false
  | .vNaN => false
  | .vBool b => b
  | .vNum n => n != 0
  | .vStr s => s != ""
  | .vArr _ => true
  | .vObj _ => true

/-- The JavaScript defaulting idiom `a || b`. -/
def jsOr (a b : JsVal) : JsVal :=
  if truthy a then a else b

/-- The test `typeof x === 'object' && x !== null`: arrays and objects
qualify, `null` (whose `typeof` is `'object'`) is excluded. -/
def isObjLike : JsVal → Bool
  | .vArr _ => true
  | .vObj _ => true
  | _ => false

/-- Number of elements of an embedded array. -/
def JsList.length : JsList → Nat
  | .nil => 0
  | .cons _ xs => 1 + xs.length

/-- Number of fields of an embedded object. -/
def JsFields.length : JsFields → Nat
  | .nil => 0
  | .cons _ _ fs => 1 + fs.length

/-- Element-wise map over an embedded array. -/
def JsList.map (g : JsVal → JsVal) : JsList → JsList
  | .nil => .nil
  | .cons x xs => .cons (g x) (JsList.map g xs)

/-- Field-wise map over an embedded object, keeping each key. -/
def JsFields.map (g : String → JsVal → JsVal) : JsFields → JsFields
  | .nil => .nil
  | .cons k v fs => .cons k (g k v) (JsFields.map g fs)

/-- ASCII lower-casing of one character, as `toLowerCase` acts on the ASCII
range (all field names in play are ASCII). -/
def lowerChar (c : Char) : Char :=
  if 'A' ≤ c && c ≤ 'Z' then Char.ofNat (c.toNat + 32) else c

/-- ASCII lower-casing of a string (JavaScript's `toLowerCase` restricted to
ASCII, kept kernel-computable). -/
def lowerStr (s : String) : String :=
  String.mk (s.data.map lowerChar)

/-- The built-in sensitive field names (`defaultMaskFields` in the
constructor). -/
def defaultMaskFields : List String :=
  ["password", "token", "secret", "authorization", "api_key", "apikey",
   "access_token", "refresh_token", "credit_card", "cvv", "ssn"]

/-- First-occurrence deduplication, as performed by `new Set([...])` in the
constructor (a JS `Set` keeps the first occurrence of each element). -/
def setDedupAux (seen : List String) : List String → List String
  | [] => []
  | x :: xs =>
    if x ∈ seen then setDedupAux seen xs else x :: setDedupAux (x :: seen) xs

/-- Construction of `this.maskFields`: when the caller supplies extra fields,
the defaults and the extras are deduplicated and lower-cased; otherwise the
(already lower-case) defaults are used as they are. -/
def mkMaskFields (extra : Option (List String)) : List String :=
  match extra with
  | some fs => (setDedupAux [] (defaultMaskFields ++ fs)).map lowerStr
  | none => defaultMaskFields

mutual
/-- `maskSensitiveData` (src/index.js lines 28–46).  A falsy or non-object
value is returned unchanged; an array is masked element-wise; an object is
copied with each field whose lower-cased key is in the rule set replaced by
`"********"`, each other object-valued field masked recursively, and every
other field copied unchanged. -/
def maskV (R : List String) : JsVal → JsVal
  | .vArr xs => .vArr (maskL R xs)
  | .vObj fs => .vObj (maskF R fs)
  | v => v

def maskL (R : List String) : JsList → JsList
  | .nil => .nil
  | .cons x xs => .cons (maskV R x) (maskL R xs)

def maskF (R : List String) : JsFields → JsFields
  | .nil => .nil
  | .cons k v fs =>
    .cons k
      (if lowerStr k ∈ R then .vStr "********"
       else if isObjLike v then maskV R v else v)
      (maskF R fs)
end

/-- ASCII upper-casing of one character (for `method.toUpperCase()`). -/
def upperChar (c : Char) : Char :=
  if 'a' ≤ c && c ≤ 'z' then Char.ofNat (c.toNat - 32) else c

/-- ASCII upper-casing of a string. -/
def upperStr (s : String) : String :=
  String.mk (s.data.map upperChar)

/-- Constructor options (`options` in `new RekLog(apiKey, options)`); an
absent field is JavaScript `undefined`.  `maskFields` is `none` when the
option is absent (the code tests its truthiness; any supplied array, even an
empty one, is truthy). -/
structure Options where
  apiUrl : JsVal := .vUndefined
  retryAttempts : JsVal := .vUndefined
  retryDelay : JsVal := .vUndefined
  debug : JsVal := .vUndefined
  environment : JsVal := .vUndefined
  host : JsVal := .vUndefined
  maskFields : Option (List String) := none

/-- The Tracker configuration fixed by the constructor (src/index.js lines
2–21). -/
structure Config where
  apiKey : JsVal
  apiUrl : JsVal
  retryAttempts : JsVal
  retryDelay : JsVal
  debug : JsVal
  environment : JsVal
  host : JsVal
  maskFields : List String

/-- The constructor: every field is the supplied option defaulted through
`||`, and after the assignments a falsy (absent or empty-string) API key
throws `RekLog: API key is required`, so no instance is produced. -/
def mkTracker (apiKey : JsVal) (options : Options) : Except String Config :=
  let cfg : Config :=
    { apiKey := apiKey
      apiUrl := jsOr options.apiUrl (.vStr "https://api.reklog.com/api")
      retryAttempts := jsOr options.retryAttempts (.vNum 3)
      retryDelay := jsOr options.retryDelay (.vNum 1000)
      debug := jsOr options.debug (.vBool false)
      environment := jsOr options.environment (.vStr "development")
      host := jsOr options.host .vNull
      maskFields := mkMaskFields options.maskFields }
  if truthy apiKey then .ok cfg else .error "RekLog: API key is required"

/-- One in-flight session stored in `this.activeLogs`. -/
structure Session where
  endpoint : String
  method : String
  startTime : Nat

/-- The session stored by `start(endpoint, method)`: the method is
upper-cased, the start instant is the current monotonic time. -/
def startSession (endpoint method : String) (startTime : Nat) : Session :=
  ⟨endpoint, upperStr method, startTime⟩

/-- The session registry `this.activeLogs`, as an association list with
`Map` semantics: `getLog` finds the entry, `delLog` removes it. -/
def getLog : List (String × Session) → String → Option Session
  | [], _ => none
  | (k, s) :: rest, logId => if k = logId then some s else getLog rest logId

/-- `this.activeLogs.delete(logId)`. -/
def delLog (logs : List (String × Session)) (logId : String) : List (String × Session) :=
  logs.filter (fun p => p.1 != logId)

/-- `this.activeLogs.set(logId, ...)`. -/
def setLog (logs : List (String × Session)) (logId : String) (s : Session) :
    List (String × Session) :=
  (logId, s) :: logs

/-- The finished log record handed to `sendLog` (the object literal at
src/index.js lines 87–99 and 178–200). -/
structure LogData where
  endpoint : String
  method : String
  responseTime : Nat
  statusCode : JsVal
  environment : JsVal
  host : JsVal
  body : JsVal
  params : JsVal
  requestHeaders : JsVal
  response : JsVal
  metadata : JsVal

/-- The `options` argument of `end(logId, options)`; an absent field is
JavaScript `undefined`. -/
structure EndOptions where
  statusCode : JsVal := .vUndefined
  environment : JsVal := .vUndefined
  body : JsVal := .vUndefined
  params : JsVal := .vUndefined
  requestHeaders : JsVal := .vUndefined
  response : JsVal := .vUndefined
  metadata : JsVal := .vUndefined

/-- The observable outcome of one `end` call: the record built and handed to
`sendLog` (`none` when no record is built, hence no delivery), whether the
`No active log found` warning was emitted, and the registry afterwards.  The
function is total: `end` never throws. -/
structure EndResult where
  record : Option LogData
  warned : Bool
  activeLogs : List (String × Session)

/-- `end(logId, options)` (src/index.js lines 72–104): look the session up,
warn and return unchanged when absent; otherwise build the log record with
the `|| null` / `|| 200` / `|| this.environment` / `|| {}` defaults, delete
the session and ship the record. -/
def endTracker (cfg : Config) (logs : List (String × Session)) (logId : String)
    (endTime : Nat) (opts : EndOptions) : EndResult :=
  match getLog logs logId with
  | none => ⟨none, true, logs⟩
  | some log =>
    let logData : LogData :=
      { endpoint := log.endpoint
        method := log.method
        responseTime := endTime - log.startTime
        statusCode := jsOr opts.statusCode (.vNum 200)
        environment := jsOr opts.environment cfg.environment
        host := cfg.host
        body := jsOr (maskV cfg.maskFields opts.body) .vNull
        params := jsOr (maskV cfg.maskFields opts.params) .vNull
        requestHeaders := jsOr (maskV cfg.maskFields opts.requestHeaders) .vNull
        response := jsOr (maskV cfg.maskFields opts.response) .vNull
        metadata := jsOr opts.metadata (.vObj .nil) }
    ⟨some logData, false, delLog logs logId⟩

/-- How the external `fetch` behaves on one attempt: it settles (resolves
with a response whose `ok` flag is given, or rejects) after the given number
of milliseconds, or never settles. -/
inductive FetchBehavior where
  | resolves : Nat → Bool → FetchBehavior
  | rejects : Nat → FetchBehavior
  | hangs : FetchBehavior

/-- The fixed per-attempt timeout of the `Promise.race` in `sendLog`. -/
def timeoutMs : Nat := 5000

/-- Outcome of one delivery attempt. -/
inductive AttemptOutcome where
  | success : AttemptOutcome
  | httpError : AttemptOutcome
  | transportError : AttemptOutcome
  | timeout : AttemptOutcome

/-- The `Promise.race([fetchPromise, timeoutPromise])` of one attempt: a
fetch that settles before the 5000 ms timer wins (a non-`ok` response is then
thrown as `HTTP <status>`); otherwise the timeout rejection wins. -/
def raceOutcome : FetchBehavior → AttemptOutcome
  | .resolves t ok => if t < timeoutMs then (if ok then .success else .httpError) else .timeout
  | .rejects t => if t < timeoutMs then .transportError else .timeout
  | .hangs => .timeout

/-- Whether an attempt lands in the `catch` block of `sendLog`. -/
def attemptFails : AttemptOutcome → Bool
  | .success => false
  | .httpError => true
  | .transportError => true
  | .timeout => true

/-- The observable behaviour of one `sendLog(logData, attempt)` call: the
attempt numbers tried in order, the waits taken before each retry, whether
the terminal `Failed to send log after multiple attempts` error was logged
(the record is then dropped), and whether an exception escaped to the
caller. -/
structure SendResult where
  attemptsMade : List Nat
  delays : List Nat
  errorLogged : Bool
  thrown : Bool

/-- `sendLog(logData, attempt)` (src/index.js lines 111–148), abstracted
over the fetch transport: on a failed attempt, retry with delay
`retryDelay * attempt` while `attempt < retryAttempts`, otherwise log the
terminal error; success ends the loop; nothing is ever thrown. -/
def sendLog (retryAttempts retryDelay : Nat) (beh : Nat → FetchBehavior)
    (attempt : Nat) : SendResult :=
  if attemptFails (raceOutcome (beh attempt)) then
    if _h : attempt < retryAttempts then
      let rest := sendLog retryAttempts retryDelay beh (attempt + 1)
      ⟨attempt :: rest.attemptsMade, retryDelay * attempt :: rest.delays,
        rest.errorLogged, rest.thrown⟩
    else ⟨[attempt], [], true, false⟩
  else ⟨[attempt], [], false, false⟩
termination_by retryAttempts - attempt
decreasing_by omega

/-- The framework request object, restricted to what the middleware reads:
`req.path`, `req.method`, `req.body`, `req.query` (a key-value map),
`req.get(name)` backed by a header list, and `req.params`. -/
structure Req where
  path : String
  method : String
  body : JsVal
  query : JsFields
  headers : List (String × String)
  routeParams : JsVal

/-- `req.get(name)`: the header value, or `undefined` when absent. -/
def reqGet (req : Req) (name : String) : JsVal :=
  match req.headers.lookup name with
  | some s => .vStr s
  | none => .vUndefined

/-- The observable behaviour of one invocation of the replaced `res.send`:
the record handed to `sendLog`, the delivery's own outcome, the payloads
passed on to the original `res.send` in order, and the registry afterwards. -/
structure MwResult where
  logData : LogData
  delivery : SendResult
  forwarded : List JsVal
  activeLogs : List (String × Session)

/-- The replaced `res.send(data)` installed by `middleware()` (src/index.js
lines 162–208), abstracted over the external `JSON.parse` (`parseJson`,
`none` when parsing throws) and the fetch transport: interpret the payload,
assemble the record, dispatch `sendLog` un-awaited with rejections caught,
delete the registry entry, and forward the original payload to the original
`res.send`. -/
def middlewareSend (parseJson : String → Option JsVal) (cfg : Config)
    (ra rd : Nat) (beh : Nat → FetchBehavior)
    (logs : List (String × Session)) (logId : String) (req : Req)
    (statusCode : Int) (responseTime : Nat) (data : JsVal) : MwResult :=
  let response : JsVal :=
    match data with
    | .vStr s =>
      if truthy (.vStr s) then
        match parseJson s with
        | some v => v
        | none => .vNull
      else .vNull
    | d => if truthy d && isObjLike d then d else .vNull
  let logData : LogData :=
    { endpoint := req.path
      method := req.method
      responseTime := responseTime
      statusCode := .vNum statusCode
      environment := cfg.environment
      host := jsOr (jsOr cfg.host (reqGet req "host")) .vNull
      body := jsOr (maskV cfg.maskFields req.body) .vNull
      params := if 0 < req.query.length then maskV cfg.maskFields (.vObj req.query)
                else .vNull
      requestHeaders := maskV cfg.maskFields
        (.vObj (.cons "content-type" (reqGet req "content-type")
          (.cons "user-agent" (reqGet req "user-agent")
            (.cons "accept" (reqGet req "accept") .nil))))
      response := maskV cfg.maskFields response
      metadata := .vObj (.cons "routeParams" req.routeParams .nil) }
  ⟨logData, sendLog ra rd beh 1, [data], delLog logs logId⟩

/-- A primitive (non-heap) JavaScript value, for the heap model. -/
inductive HScalar where
  | hNull : HScalar
  | hUndefined : HScalar
  | hNaN : HScalar
  | hBool : Bool → HScalar
  | hNum : Int → HScalar
  | hStr : String → HScalar

/-- A JavaScript value in the heap model: a primitive, or a reference to a
heap object. -/
inductive HVal where
  | scalar : HScalar → HVal
  | ref : Nat → HVal

/-- A heap object: an array of values or a plain object. -/
inductive HObj where
  | arr : List HVal → HObj
  | obj : List (String × HVal) → HObj

/-- The heap: object number `a` lives at index `a`; allocation appends. -/
abbrev Heap := List HObj

mutual
/-- Heap model of `maskSensitiveData`, making object identity explicit so
that mutation is observable: masking a reference reads the object, masks its
parts, and allocates a **new** object (`{ ...data }` / `data.map(...)`),
writing only into the fresh copy.  The fuel argument only enforces
termination (the JavaScript original can diverge on cyclic heaps); it is
spent on every recursive step and `none` means it ran out. -/
def maskHVal (R : List String) : Nat → Heap → HVal → Option (Heap × HVal)
  | 0, _, _ => none
  | _ + 1, h, .scalar s => some (h, .scalar s)
  | fuel + 1, h, .ref a =>
    match h[a]? with
    | none => none
    | some (.arr xs) =>
      match maskHList R fuel h xs with
      | none => none
      | some (h1, ys) => some (h1 ++ [.arr ys], .ref h1.length)
    | some (.obj fs) =>
      match maskHFields R fuel h fs with
      | none => none
      | some (h1, gs) => some (h1 ++ [.obj gs], .ref h1.length)

def maskHList (R : List String) : Nat → Heap → List HVal → Option (Heap × List HVal)
  | 0, _, _ => none
  | _ + 1, h, [] => some (h, [])
  | fuel + 1, h, x :: xs =>
    match maskHVal R fuel h x with
    | none => none
    | some (h1, y) =>
      match maskHList R fuel h1 xs with
      | none => none
      | some (h2, ys) => some (h2, y :: ys)

def maskHFields (R : List String) :
    Nat → Heap → List (String × HVal) → Option (Heap × List (String × HVal))
  | 0, _, _ => none
  | _ + 1, h, [] => some (h, [])
  | fuel + 1, h, (k, v) :: fs =>
    if lowerStr k ∈ R then
      match maskHFields R fuel h fs with
      | none => none
      | some (h2, gs) => some (h2, (k, .scalar (.hStr "********")) :: gs)
    else
      match v with
      | .ref a =>
        match maskHVal R fuel h (.ref a) with
        | none => none
        | some (h1, w) =>
          match maskHFields R fuel h1 fs with
          | none => none
          | some (h2, gs) => some (h2, (k, w) :: gs)
      | .scalar s =>
        match maskHFields R fuel h fs with
        | none => none
        | some (h2, gs) => some (h2, (k, .scalar s) :: gs)
end

/-- A concrete configuration for instantiating the theorems: the fields of
`new RekLog('rkl_key', {})`. -/
def sampleCfg : Config :=
  ⟨.vStr "rkl_key", .vStr "https://api.reklog.com/api", .vNum 3, .vNum 1000,
   .vBool false, .vStr "development", .vNull, defaultMaskFields⟩

/-- A concrete framework request carrying a `Host` header. -/
def sampleReq : Req :=
  ⟨"/api/users", "GET", .vNull, .nil, [("host", "example.com")], .vObj .nil⟩

/-- A concrete stored session. -/
def sampleSession : Session :=
  ⟨"/api/users", "GET", 0⟩

/-- Heap masking only allocates: whatever `maskHVal`, `maskHList` or
`maskHFields` returns, the input heap is an unchanged prefix of the output
heap, so every pre-existing object is untouched. -/
theorem maskH_extends (R : List String) : ∀ fuel : Nat,
    (∀ h v h' v', maskHVal R fuel h v = some (h', v') → h <+: h') ∧
    (∀ h xs h' ys, maskHList R fuel h xs = some (h', ys) → h <+: h') ∧
    (∀ h fs h' gs, maskHFields R fuel h fs = some (h', gs) → h <+: h') := by
  intro fuel
  induction fuel with
  | zero =>
    refine ⟨?_, ?_, ?_⟩ <;> intro h x h' y hEq <;>
      simp [maskHVal, maskHList, maskHFields] at hEq
  | succ n ih =>
    obtain ⟨ihV, ihL, ihF⟩ := ih
    refine ⟨?_, ?_, ?_⟩
    · intro h v h' v' hEq
      cases v with
      | scalar s =>
        simp only [maskHVal, Option.some.injEq, Prod.mk.injEq] at hEq
        rw [← hEq.1]
      | ref a =>
        simp only [maskHVal] at hEq
        cases hLk : h[a]? with
        | none => simp [hLk] at hEq
        | some o =>
          cases o with
          | arr xs =>
            simp only [hLk] at hEq
            cases hL : maskHList R n h xs with
            | none => simp [hL] at hEq
            | some p =>
              obtain ⟨h1, ys⟩ := p
              simp only [hL, Option.some.injEq, Prod.mk.injEq] at hEq
              rw [← hEq.1]
              exact (ihL h xs h1 ys hL).trans ⟨[HObj.arr ys], rfl⟩
          | obj fs =>
            simp only [hLk] at hEq
            cases hF : maskHFields R n h fs with
            | none => simp [hF] at hEq
            | some p =>
              obtain ⟨h1, gs⟩ := p
              simp only [hF, Option.some.injEq, Prod.mk.injEq] at hEq
              rw [← hEq.1]
              exact (ihF h fs h1 gs hF).trans ⟨[HObj.obj gs], rfl⟩
    · intro h xs h' ys hEq
      cases xs with
      | nil =>
        simp only [maskHList, Option.some.injEq, Prod.mk.injEq] at hEq
        rw [← hEq.1]
      | cons x rest =>
        simp only [maskHList] at hEq
        cases hV : maskHVal R n h x with
        | none => simp [hV] at hEq
        | some p =>
          obtain ⟨h1, y⟩ := p
          simp only [hV] at hEq
          cases hL : maskHList R n h1 rest with
          | none => simp [hL] at hEq
          | some q =>
            obtain ⟨h2, ys2⟩ := q
            simp only [hL, Option.some.injEq, Prod.mk.injEq] at hEq
            rw [← hEq.1]
            exact (ihV h x h1 y hV).trans (ihL h1 rest h2 ys2 hL)
    · intro h fs h' gs hEq
      cases fs with
      | nil =>
        simp only [maskHFields, Option.some.injEq, Prod.mk.injEq] at hEq
        rw [← hEq.1]
      | cons kv rest =>
        obtain ⟨k, v⟩ := kv
        simp only [maskHFields] at hEq
        by_cases hk : lowerStr k ∈ R
        · rw [if_pos hk] at hEq
          cases hF : maskHFields R n h rest with
          | none => simp [hF] at hEq
          | some p =>
            obtain ⟨h2, gs2⟩ := p
            simp only [hF, Option.some.injEq, Prod.mk.injEq] at hEq
            rw [← hEq.1]
            exact ihF h rest h2 gs2 hF
        · rw [if_neg hk] at hEq
          cases v with
          | ref a =>
            cases hV : maskHVal R n h (.ref a) with
            | none => simp [hV] at hEq
            | some p =>
              obtain ⟨h1, w⟩ := p
              simp only [hV] at hEq
              cases hF : maskHFields R n h1 rest with
              | none => simp [hF] at hEq
              | some q =>
                obtain ⟨h2, gs2⟩ := q
                simp only [hF, Option.some.injEq, Prod.mk.injEq] at hEq
                rw [← hEq.1]
                exact (ihV h (.ref a) h1 w hV).trans (ihF h1 rest h2 gs2 hF)
          | scalar s =>
            cases hF : maskHFields R n h rest with
            | none => simp [hF] at hEq
            | some p =>
              obtain ⟨h2, gs2⟩ := p
              simp only [hF, Option.some.injEq, Prod.mk.injEq] at hEq
              rw [← hEq.1]
              exact ihF h rest h2 gs2 hF

mutual
/-- Masking twice is the same as masking once, on any value. -/
theorem maskV_idem (R : List String) : (v : JsVal) → maskV R (maskV R v) = maskV R v
  | .vNull => rfl
  | .vUndefined => rfl
  | .vNaN => rfl
  | .vBool _ => rfl
  | .vNum _ => rfl
  | .vStr _ => rfl
  | .vArr xs => by simp only [maskV, maskL_idem R xs]
  | .vObj fs => by simp only [maskV, maskF_idem R fs]

/-- Masking twice is the same as masking once, element-wise. -/
theorem maskL_idem (R : List String) : (xs : JsList) → maskL R (maskL R xs) = maskL R xs
  | .nil => rfl
  | .cons x xs => by simp only [maskL, maskV_idem R x, maskL_idem R xs]

/-- Masking twice is the same as masking once, field-wise. -/
theorem maskF_idem (R : List String) : (fs : JsFields) → maskF R (maskF R fs) = maskF R fs
  | .nil => rfl
  | .cons k v fs => by
    have htl := maskF_idem R fs
    by_cases hk : lowerStr k ∈ R
    · simp [maskF, hk, htl, isObjLike]
    · cases v with
      | vArr xs => simp [maskF, hk, htl, maskV, isObjLike, maskL_idem R xs]
      | vObj gs => simp [maskF, hk, htl, maskV, isObjLike, maskF_idem R gs]
      | vNull => simp [maskF, hk, htl, isObjLike]
      | vUndefined => simp [maskF, hk, htl, isObjLike]
      | vNaN => simp [maskF, hk, htl, isObjLike]
      | vBool b => simp [maskF, hk, htl, isObjLike]
      | vNum n => simp [maskF, hk, htl, isObjLike]
      | vStr s => simp [maskF, hk, htl, isObjLike]
end

theorem maskL_eq_map (R : List String) : ∀ xs, maskL R xs = JsList.map (maskV R) xs
  | .nil => rfl
  | .cons x xs => by simp only [maskL, JsList.map, maskL_eq_map R xs]

theorem maskF_eq_map (R : List String) : ∀ fs, maskF R fs = JsFields.map
    (fun k v => if lowerStr k ∈ R then .vStr "********"
      else if isObjLike v then maskV R v else v) fs
  | .nil => rfl
  | .cons k v fs => by simp only [maskF, JsFields.map, maskF_eq_map R fs]

theorem JsList.length_map (g : JsVal → JsVal) : ∀ xs, (JsList.map g xs).length = xs.length
  | .nil => rfl
  | .cons x xs => by simp only [JsList.map, JsList.length, JsList.length_map g xs]

theorem mem_setDedupAux (x : String) :
    ∀ (l seen : List String), x ∈ setDedupAux seen l ↔ x ∈ l ∧ x ∉ seen := by
  intro l
  induction l with
  | nil => intro seen; simp [setDedupAux]
  | cons y ys ih =>
    intro seen
    by_cases hy : y ∈ seen
    · rw [setDedupAux, if_pos hy, ih]
      constructor
      · rintro ⟨hx, hs⟩; exact ⟨List.mem_cons_of_mem y hx, hs⟩
      · rintro ⟨hx, hs⟩
        rcases List.mem_cons.mp hx with rfl | hx
        · exact absurd hy hs
        · exact ⟨hx, hs⟩
    · rw [setDedupAux, if_neg hy]
      constructor
      · intro hx
        rcases List.mem_cons.mp hx with rfl | hx
        · exact ⟨List.mem_cons_self x ys, fun hs => hy hs⟩
        · obtain ⟨h1, h2⟩ := (ih (y :: seen)).mp hx
          refine ⟨List.mem_cons_of_mem y h1, fun hs => h2 (List.mem_cons_of_mem y hs)⟩
      · rintro ⟨hx, hs⟩
        rcases List.mem_cons.mp hx with rfl | hx
        · exact List.mem_cons_self x _
        · by_cases hxy : x = y
          · subst hxy; exact List.mem_cons_self x _
          · exact List.mem_cons_of_mem y ((ih (y :: seen)).mpr
              ⟨hx, by simp [List.mem_cons, hxy, hs]⟩)

theorem mem_mkMaskFields (extra : List String) (s : String) :
    s ∈ mkMaskFields (some extra) ↔
      s ∈ defaultMaskFields.map lowerStr ∨ s ∈ extra.map lowerStr := by
  simp only [mkMaskFields, List.mem_map]
  constructor
  · rintro ⟨t, ht, rfl⟩
    obtain ⟨h1, -⟩ := (mem_setDedupAux t _ []).mp ht
    rcases List.mem_append.mp h1 with h | h
    · exact Or.inl ⟨t, h, rfl⟩
    · exact Or.inr ⟨t, h, rfl⟩
  · rintro (⟨t, ht, rfl⟩ | ⟨t, ht, rfl⟩)
    · exact ⟨t, (mem_setDedupAux t _ []).mpr ⟨List.mem_append_left _ ht, by simp⟩, rfl⟩
    · exact ⟨t, (mem_setDedupAux t _ []).mpr ⟨List.mem_append_right _ ht, by simp⟩, rfl⟩

/-- With a truthy API key the constructor succeeds and returns the
defaulted configuration. -/
theorem mkTracker_ok (k : JsVal) (opts : Options) (hk : truthy k = true) :
    mkTracker k opts = .ok
      ⟨k, jsOr opts.apiUrl (.vStr "https://api.reklog.com/api"),
       jsOr opts.retryAttempts (.vNum 3), jsOr opts.retryDelay (.vNum 1000),
       jsOr opts.debug (.vBool false), jsOr opts.environment (.vStr "development"),
       jsOr opts.host .vNull, mkMaskFields opts.maskFields⟩ := by
  simp [mkTracker, hk]

/-- After deleting a key, looking it up fails. -/
theorem getLog_delLog (logId : String) :
    ∀ logs : List (String × Session), getLog (delLog logs logId) logId = none := by
  intro logs
  induction logs with
  | nil => rfl
  | cons p rest ih =>
    obtain ⟨k, s⟩ := p
    by_cases hk : k = logId
    · subst hk
      simp only [delLog, List.filter]
      rw [show (k != k) = false by simp]
      exact ih
    · simp only [delLog, List.filter]
      rw [show (k != logId) = true by simp [hk]]
      simp only [getLog, if_neg hk]
      exact ih

/-- A falsy value is never an array or an object, so masking returns it
unchanged. -/
theorem maskV_of_falsy (R : List String) (v : JsVal) (h : truthy v = false) :
    maskV R v = v := by
  cases v <;> simp_all [truthy, maskV]

/-- `sendLog` never lets an exception escape. -/
theorem sendLog_noThrow (retryAttempts retryDelay : Nat) (beh : Nat → FetchBehavior)
    (attempt : Nat) : (sendLog retryAttempts retryDelay beh attempt).thrown = false := by
  rw [sendLog]
  by_cases hf : attemptFails (raceOutcome (beh attempt)) = true
  · rw [if_pos hf]
    by_cases h : attempt < retryAttempts
    · rw [dif_pos h]
      exact sendLog_noThrow retryAttempts retryDelay beh (attempt + 1)
    · rw [dif_neg h]
  · rw [if_neg hf]
termination_by retryAttempts - attempt
decreasing_by omega

/-- When every attempt fails, `sendLog` starting at `attempt = a` tries the
attempts `a, a+1, …, max a retryAttempts`, waits `retryDelay * k` before the
retry following failed attempt `k`, logs the terminal error and throws
nothing. -/
theorem sendLog_allFail (retryAttempts retryDelay : Nat) (beh : Nat → FetchBehavior)
    (hf : ∀ n, attemptFails (raceOutcome (beh n)) = true) (a : Nat) :
    sendLog retryAttempts retryDelay beh a =
      ⟨List.range' a (retryAttempts - a + 1),
       (List.range' a (retryAttempts - a)).map (fun k => retryDelay * k),
       true, false⟩ := by
  rw [sendLog, if_pos (hf a)]
  by_cases h : a < retryAttempts
  · rw [dif_pos h]
    rw [sendLog_allFail retryAttempts retryDelay beh hf (a + 1)]
    have h1 : retryAttempts - a + 1 = (retryAttempts - (a + 1) + 1) + 1 := by omega
    have h2 : retryAttempts - a = (retryAttempts - (a + 1)) + 1 := by omega
    simp [h1, h2, List.range'_succ]
  · rw [dif_neg h]
    have h0 : retryAttempts - a = 0 := by omega
    simp [h0]
termination_by retryAttempts - a
decreasing_by omega

/-- C1: `maskSensitiveData` returns non-object scalars and `null` unchanged;
masks arrays element-wise, preserving order and length; and copies objects,
replacing the value of every key whose lower-cased name is in the rule set by
`"********"` whatever the value, recursing into non-matching object values,
and copying every other value unchanged.  The configured rule set is the
lower-cased union of the built-ins and the caller's additions.  With
`password` and `pin` in the rule set the documented example masks as stated,
and `password`/`Password`/`PASSWORD` keys are all redacted identically. -/
theorem claim1_mask_rules :
    (∀ R : List String, maskV R .vNull = .vNull ∧ maskV R .vUndefined = .vUndefined ∧
      maskV R .vNaN = .vNaN ∧ (∀ b, maskV R (.vBool b) = .vBool b) ∧
      (∀ n, maskV R (.vNum n) = .vNum n) ∧ (∀ s, maskV R (.vStr s) = .vStr s)) ∧
    (∀ (R : List String) (xs : JsList),
      maskV R (.vArr xs) = .vArr (JsList.map (maskV R) xs) ∧
      (JsList.map (maskV R) xs).length = xs.length) ∧
    (∀ (R : List String) (fs : JsFields), maskV R (.vObj fs) = .vObj (JsFields.map
      (fun k v => if lowerStr k ∈ R then .vStr "********"
        else if isObjLike v then maskV R v else v) fs)) ∧
    (∀ (extra : List String) (s : String), s ∈ mkMaskFields (some extra) ↔
      s ∈ defaultMaskFields.map lowerStr ∨ s ∈ extra.map lowerStr) ∧
    (maskV (mkMaskFields (some ["pin"]))
      (.vObj (.cons "email" (.vStr "a@b.com") (.cons "password" (.vStr "x")
        (.cons "profile" (.vObj (.cons "pin" (.vStr "1234") .nil)) .nil))))
      = .vObj (.cons "email" (.vStr "a@b.com") (.cons "password" (.vStr "********")
        (.cons "profile" (.vObj (.cons "pin" (.vStr "********") .nil)) .nil)))) ∧
    (∀ v1 v2 v3 : JsVal, maskV defaultMaskFields
      (.vObj (.cons "password" v1 (.cons "Password" v2 (.cons "PASSWORD" v3 .nil))))
      = .vObj (.cons "password" (.vStr "********") (.cons "Password" (.vStr "********")
        (.cons "PASSWORD" (.vStr "********") .nil)))) := by
  refine ⟨?_, ?_, ?_, ?_, ?_, ?_⟩
  · exact fun R => ⟨rfl, rfl, rfl, fun _ => rfl, fun _ => rfl, fun _ => rfl⟩
  · exact fun R xs => ⟨by simp only [maskV, maskL_eq_map], JsList.length_map _ xs⟩
  · intro R fs
    simp only [maskV, maskF_eq_map]
  · exact fun extra s => mem_mkMaskFields extra s
  · rfl
  · intro v1 v2 v3
    have h1 : lowerStr "password" ∈ defaultMaskFields := by decide
    have h2 : lowerStr "Password" ∈ defaultMaskFields := by decide
    have h3 : lowerStr "PASSWORD" ∈ defaultMaskFields := by decide
    simp [maskV, maskF, h1, h2, h3]

/-- C7: masking is idempotent — masking an already-masked value changes
nothing, for every rule set. -/
theorem claim7_mask_idempotent : ∀ (R : List String) (v : JsVal),
    maskV R (maskV R v) = maskV R v :=
  fun R v => maskV_idem R v

/-- C2: when every attempt fails, delivery starting at attempt 1 makes
attempts `1, …, retryAttempts` (so `retryAttempts − 1` further attempts after
the first failure), waits `retryDelay * attemptNumber` before each retry
(linear backoff), logs the terminal error and drops the record; a successful
attempt ends the loop at once; and no exception ever reaches the caller. -/
theorem claim2_retry_policy :
    (∀ (ra rd : Nat) (beh : Nat → FetchBehavior),
      (∀ n, attemptFails (raceOutcome (beh n)) = true) →
      (sendLog ra rd beh 1).attemptsMade = List.range' 1 (max ra 1) ∧
      (sendLog ra rd beh 1).attemptsMade.length - 1 = ra - 1 ∧
      (sendLog ra rd beh 1).delays = (List.range' 1 (ra - 1)).map (fun k => rd * k) ∧
      (sendLog ra rd beh 1).errorLogged = true ∧
      (sendLog ra rd beh 1).thrown = false) ∧
    (∀ (ra rd : Nat) (beh : Nat → FetchBehavior) (a : Nat),
      attemptFails (raceOutcome (beh a)) = false →
      sendLog ra rd beh a = ⟨[a], [], false, false⟩) ∧
    (∀ (ra rd : Nat) (beh : Nat → FetchBehavior) (a : Nat),
      (sendLog ra rd beh a).thrown = false) := by
  refine ⟨?_, ?_, fun ra rd beh a => sendLog_noThrow ra rd beh a⟩
  · intro ra rd beh hf
    rw [sendLog_allFail ra rd beh hf 1]
    have hmax : ra - 1 + 1 = max ra 1 := by omega
    rw [hmax]
    refine ⟨rfl, ?_, rfl, rfl, rfl⟩
    simp only [List.length_range']
    omega
  · intro ra rd beh a hs
    rw [sendLog, if_neg (by simp [hs])]

/-- C2 witness: with three rejecting attempts the attempts are 1, 2, 3 and
the delays 100, 200; a first successful attempt makes exactly one attempt. -/
theorem claim2_retry_policy_witness :
    (sendLog 3 100 (fun _ => .rejects 0) 1).attemptsMade = List.range' 1 (max 3 1) ∧
    (sendLog 3 100 (fun _ => .rejects 0) 1).delays =
      (List.range' 1 (3 - 1)).map (fun k => 100 * k) ∧
    sendLog 3 100 (fun _ => .resolves 10 true) 1 = ⟨[1], [], false, false⟩ :=
  ⟨(claim2_retry_policy.1 3 100 (fun _ => .rejects 0) (fun _ => rfl)).1,
   (claim2_retry_policy.1 3 100 (fun _ => .rejects 0) (fun _ => rfl)).2.2.1,
   claim2_retry_policy.2.1 3 100 (fun _ => .resolves 10 true) 1 rfl⟩

/-- C3: `end` on an unknown or already-consumed id warns, builds no record
(hence ships nothing), does not throw, and leaves the registry unchanged;
and after any `end` on an id, a second `end` on the same id never builds a
record, so at most one record is ever built per id. -/
theorem claim3_unknown_session :
    (∀ (cfg : Config) (logs : List (String × Session)) (logId : String)
        (endTime : Nat) (opts : EndOptions), getLog logs logId = none →
      (endTracker cfg logs logId endTime opts).record = none ∧
      (endTracker cfg logs logId endTime opts).warned = true ∧
      (endTracker cfg logs logId endTime opts).activeLogs = logs) ∧
    (∀ (cfg cfg2 : Config) (logs : List (String × Session)) (logId : String)
        (t1 t2 : Nat) (o1 o2 : EndOptions),
      (endTracker cfg2 (endTracker cfg logs logId t1 o1).activeLogs logId t2 o2).record
        = none) := by
  constructor
  · intro cfg logs logId endTime opts h
    simp [endTracker, h]
  · intro cfg cfg2 logs logId t1 t2 o1 o2
    cases hg : getLog logs logId with
    | none => simp [endTracker, hg]
    | some log => simp [endTracker, hg, getLog_delLog]

/-- C3 witness: ending an id on an empty registry warns and is a no-op. -/
theorem claim3_unknown_session_witness :
    (endTracker sampleCfg [] "nope" 7 {}).record = none ∧
    (endTracker sampleCfg [] "nope" 7 {}).warned = true ∧
    (endTracker sampleCfg [] "nope" 7 {}).activeLogs = [] :=
  claim3_unknown_session.1 sampleCfg [] "nope" 7 {} rfl

/-- C4: the replaced `res.send` forwards exactly the original payload to the
original `res.send`, once, for every payload, every possible `JSON.parse`
behaviour and every delivery outcome; and the dispatched delivery never
throws back into the request cycle. -/
theorem claim4_middleware_transparent :
    ∀ (parseJson : String → Option JsVal) (cfg : Config) (ra rd : Nat)
      (beh : Nat → FetchBehavior) (logs : List (String × Session)) (logId : String)
      (req : Req) (sc : Int) (rt : Nat) (data : JsVal),
      (middlewareSend parseJson cfg ra rd beh logs logId req sc rt data).forwarded
        = [data] ∧
      (middlewareSend parseJson cfg ra rd beh logs logId req sc rt data).delivery.thrown
        = false := by
  intro parseJson cfg ra rd beh logs logId req sc rt data
  exact ⟨rfl, sendLog_noThrow ra rd beh 1⟩

/-- C5 counterexample: with no configured host (`host = null`), the
middleware-path record takes its `host` from the request's `Host` header
(`example.com` here), so the field does not always equal the value fixed at
construction and does derive from request data. -/
theorem claim5_host_counterexample :
    sampleCfg.host = .vNull ∧
    (middlewareSend (fun _ => none) sampleCfg 3 1000 (fun _ => .hangs) [] "id"
      sampleReq 200 5 .vNull).logData.host = .vStr "example.com" ∧
    JsVal.vStr "example.com" ≠ JsVal.vNull := by
  refine ⟨rfl, rfl, ?_⟩
  intro h
  cases h

/-- C5 amended: a record built by the manual `end` path always carries the
configured host; a middleware-path record carries the configured host only
when that value is truthy, and otherwise falls back to the request's `host`
header defaulted to `null`. -/
theorem claim5_host_amended :
    (∀ (cfg : Config) (logs : List (String × Session)) (logId : String)
        (endTime : Nat) (opts : EndOptions) (log : Session),
      getLog logs logId = some log →
      Option.map LogData.host (endTracker cfg logs logId endTime opts).record
        = some cfg.host) ∧
    (∀ (parseJson : String → Option JsVal) (cfg : Config) (ra rd : Nat)
        (beh : Nat → FetchBehavior) (logs : List (String × Session)) (logId : String)
        (req : Req) (sc : Int) (rt : Nat) (data : JsVal),
      (truthy cfg.host = true →
        (middlewareSend parseJson cfg ra rd beh logs logId req sc rt data).logData.host
          = cfg.host) ∧
      (truthy cfg.host = false →
        (middlewareSend parseJson cfg ra rd beh logs logId req sc rt data).logData.host
          = jsOr (reqGet req "host") .vNull)) := by
  constructor
  · intro cfg logs logId endTime opts log h
    simp [endTracker, h]
  · intro parseJson cfg ra rd beh logs logId req sc rt data
    constructor
    · intro h
      show jsOr (jsOr cfg.host (reqGet req "host")) .vNull = cfg.host
      simp [jsOr, h]
    · intro h
      show jsOr (jsOr cfg.host (reqGet req "host")) .vNull = jsOr (reqGet req "host") .vNull
      simp [jsOr, h]

/-- C5 amended, witness: the manual path on a live session reports the
configured (null) host; the middleware path with null configured host
reports the request's host header. -/
theorem claim5_host_amended_witness :
    Option.map LogData.host
      (endTracker sampleCfg [("id1", sampleSession)] "id1" 9 {}).record
      = some sampleCfg.host ∧
    (middlewareSend (fun _ => none) sampleCfg 3 1000 (fun _ => .hangs) [] "id"
      sampleReq 200 5 .vNull).logData.host = jsOr (reqGet sampleReq "host") .vNull :=
  ⟨claim5_host_amended.1 sampleCfg [("id1", sampleSession)] "id1" 9 {} sampleSession rfl,
   (claim5_host_amended.2 (fun _ => none) sampleCfg 3 1000 (fun _ => .hangs) [] "id"
      sampleReq 200 5 .vNull).2 rfl⟩

/-- C6 counterexample: with `body: false` in the outcome, the sanitizer's
output on that field is `false`, but the record stores `null` — so the
record field is not always the sanitizer's output on the outcome field. -/
theorem claim6_sanitizer_counterexample :
    Option.map LogData.body
      (endTracker sampleCfg [("id1", sampleSession)] "id1" 9
        { body := .vBool false }).record = some .vNull ∧
    maskV sampleCfg.maskFields (.vBool false) = .vBool false ∧
    JsVal.vNull ≠ JsVal.vBool false := by
  refine ⟨rfl, rfl, ?_⟩
  intro h
  cases h

/-- C6 amended: for a live session, each of `body`, `params`,
`requestHeaders`, `response` is the sanitizer's output on the corresponding
outcome field when that output is truthy and `null` otherwise; `statusCode`
is the outcome's when truthy, else 200; `environment` is the outcome's when
truthy, else the configured one; `metadata` is the outcome's when truthy,
else the empty object, and is not sanitized; `endpoint` and `method` come
from the stored session. -/
theorem claim6_record_fields_amended :
    ∀ (cfg : Config) (logs : List (String × Session)) (logId : String)
      (endTime : Nat) (opts : EndOptions) (log : Session),
      getLog logs logId = some log →
      (endTracker cfg logs logId endTime opts).record = some
        { endpoint := log.endpoint
          method := log.method
          responseTime := endTime - log.startTime
          statusCode := if truthy opts.statusCode then opts.statusCode else .vNum 200
          environment := if truthy opts.environment then opts.environment
                         else cfg.environment
          host := cfg.host
          body := if truthy (maskV cfg.maskFields opts.body)
                  then maskV cfg.maskFields opts.body else .vNull
          params := if truthy (maskV cfg.maskFields opts.params)
                  then maskV cfg.maskFields opts.params else .vNull
          requestHeaders := if truthy (maskV cfg.maskFields opts.requestHeaders)
                  then maskV cfg.maskFields opts.requestHeaders else .vNull
          response := if truthy (maskV cfg.maskFields opts.response)
                  then maskV cfg.maskFields opts.response else .vNull
          metadata := if truthy opts.metadata then opts.metadata else .vObj .nil } := by
  intro cfg logs logId endTime opts log h
  simp [endTracker, h, jsOr]

/-- C6 amended, witness: ending a live session with an empty outcome yields
the fully defaulted record. -/
theorem claim6_record_fields_amended_witness :
    (endTracker sampleCfg [("id1", sampleSession)] "id1" 9 {}).record = some
      ⟨"/api/users", "GET", 9, .vNum 200, .vStr "development", .vNull,
       .vNull, .vNull, .vNull, .vNull, .vObj .nil⟩ := by
  rw [claim6_record_fields_amended sampleCfg [("id1", sampleSession)] "id1" 9 {}
    sampleSession rfl]
  rfl

/-- C8: masking never mutates its input — the heap after `maskHVal` extends
the input heap as an unchanged prefix, so every pre-existing object (in
particular every object and array of the input value) holds exactly what it
held before the call, also when keys match the rule set. -/
theorem claim8_mask_no_mutation :
    ∀ (R : List String) (fuel : Nat) (h h' : Heap) (v v' : HVal),
      maskHVal R fuel h v = some (h', v') →
      h <+: h' ∧ ∀ a : Nat, a < h.length → h'[a]? = h[a]? := by
  intro R fuel h h' v v' hEq
  have hp := (maskH_extends R fuel).1 h v h' v' hEq
  refine ⟨hp, ?_⟩
  intro a ha
  obtain ⟨t, rfl⟩ := hp
  rw [List.getElem?_append, if_pos ha]

/-- C8 witness: masking a one-object heap allocates the redacted copy at a
fresh address and leaves the original object unchanged. -/
theorem claim8_mask_no_mutation_witness :
    maskHVal ["password"] 5 [HObj.obj [("password", HVal.scalar (.hStr "x"))]]
      (.ref 0) = some ([HObj.obj [("password", HVal.scalar (.hStr "x"))],
        HObj.obj [("password", HVal.scalar (.hStr "********"))]], .ref 1) ∧
    [HObj.obj [("password", HVal.scalar (.hStr "x"))]] <+:
      [HObj.obj [("password", HVal.scalar (.hStr "x"))],
       HObj.obj [("password", HVal.scalar (.hStr "********"))]] :=
  ⟨rfl, (claim8_mask_no_mutation ["password"] 5
    [HObj.obj [("password", HVal.scalar (.hStr "x"))]]
    [HObj.obj [("password", HVal.scalar (.hStr "x"))],
     HObj.obj [("password", HVal.scalar (.hStr "********"))]]
    (.ref 0) (.ref 1) rfl).1⟩

/-- C9: construction fails exactly for a falsy (absent or empty-string) API
key — no instance is produced then — while any non-empty string key
succeeds; with empty options the configuration carries the documented
defaults. -/
theorem claim9_constructor_validation :
    (∀ (k : JsVal) (opts : Options),
      (∃ e, mkTracker k opts = .error e) ↔ truthy k = false) ∧
    (∀ opts : Options, ∃ e, mkTracker .vUndefined opts = .error e) ∧
    (∀ opts : Options, ∃ e, mkTracker (.vStr "") opts = .error e) ∧
    (∀ (s : String) (opts : Options), s ≠ "" →
      ∃ cfg, mkTracker (.vStr s) opts = .ok cfg) ∧
    (∃ cfg, mkTracker (.vStr "rkl_key") {} = .ok cfg ∧
      cfg.apiUrl = .vStr "https://api.reklog.com/api" ∧
      cfg.retryAttempts = .vNum 3 ∧ cfg.retryDelay = .vNum 1000 ∧
      cfg.environment = .vStr "development" ∧ cfg.host = .vNull ∧
      cfg.debug = .vBool false) := by
  have herr : ∀ (k : JsVal) (opts : Options), truthy k = false →
      ∃ e, mkTracker k opts = .error e := by
    intro k opts h
    exact ⟨"RekLog: API key is required", by simp [mkTracker, h]⟩
  refine ⟨?_, fun opts => herr _ opts rfl, fun opts => herr _ opts rfl, ?_, ?_⟩
  · intro k opts
    constructor
    · rintro ⟨e, he⟩
      by_contra hnot
      rw [Bool.not_eq_false] at hnot
      simp [mkTracker, hnot] at he
    · exact herr k opts
  · intro s opts hs
    have ht : truthy (.vStr s) = true := by simp [truthy, hs]
    exact ⟨_, mkTracker_ok _ opts ht⟩
  · exact ⟨_, rfl, rfl, rfl, rfl, rfl, rfl, rfl⟩

/-- C9 witness: the key `rkl_key` is non-empty and construction with it
succeeds. -/
theorem claim9_constructor_validation_witness :
    ("rkl_key" ≠ "") ∧ ∃ cfg, mkTracker (.vStr "rkl_key") {} = .ok cfg :=
  ⟨by decide, claim9_constructor_validation.2.2.2.1 "rkl_key" {} (by decide)⟩

/-- C10: falsy coercions — on a live session, a falsy `body` / `params` /
`requestHeaders` / `response` outcome field is recorded as `null`, a zero
`statusCode` becomes 200, and a falsy `metadata` becomes the empty object;
at construction, `retryAttempts: 0` and `retryDelay: 0` yield the defaults 3
and 1000. -/
theorem claim10_falsy_coercions :
    (∀ (cfg : Config) (logs : List (String × Session)) (logId : String)
        (endTime : Nat) (opts : EndOptions) (log : Session),
      getLog logs logId = some log →
      (truthy opts.body = false →
        Option.map LogData.body (endTracker cfg logs logId endTime opts).record
          = some .vNull) ∧
      (truthy opts.params = false →
        Option.map LogData.params (endTracker cfg logs logId endTime opts).record
          = some .vNull) ∧
      (truthy opts.requestHeaders = false →
        Option.map LogData.requestHeaders
          (endTracker cfg logs logId endTime opts).record = some .vNull) ∧
      (truthy opts.response = false →
        Option.map LogData.response (endTracker cfg logs logId endTime opts).record
          = some .vNull) ∧
      (opts.statusCode = .vNum 0 →
        Option.map LogData.statusCode (endTracker cfg logs logId endTime opts).record
          = some (.vNum 200)) ∧
      (truthy opts.metadata = false →
        Option.map LogData.metadata (endTracker cfg logs logId endTime opts).record
          = some (.vObj .nil))) ∧
    (∀ (k : JsVal) (opts : Options), truthy k = true →
      opts.retryAttempts = .vNum 0 → opts.retryDelay = .vNum 0 →
      ∃ cfg, mkTracker k opts = .ok cfg ∧ cfg.retryAttempts = .vNum 3 ∧
        cfg.retryDelay = .vNum 1000) := by
  constructor
  · intro cfg logs logId endTime opts log h
    refine ⟨?_, ?_, ?_, ?_, ?_, ?_⟩
    · intro hf
      simp [endTracker, h, jsOr, maskV_of_falsy _ _ hf, hf]
    · intro hf
      simp [endTracker, h, jsOr, maskV_of_falsy _ _ hf, hf]
    · intro hf
      simp [endTracker, h, jsOr, maskV_of_falsy _ _ hf, hf]
    · intro hf
      simp [endTracker, h, jsOr, maskV_of_falsy _ _ hf, hf]
    · intro hf
      simp [endTracker, h, jsOr, hf, truthy]
    · intro hf
      simp [endTracker, h, jsOr, hf]
  · intro k opts hk h1 h2
    refine ⟨_, mkTracker_ok k opts hk, ?_, ?_⟩
    · show jsOr opts.retryAttempts (.vNum 3) = .vNum 3
      rw [h1]
      rfl
    · show jsOr opts.retryDelay (.vNum 1000) = .vNum 1000
      rw [h2]
      rfl

/-- C10 witness: a live session ended with `body: false`, `statusCode: 0`
and no metadata records `null`, 200 and `{}`; construction with zero retry
options keeps the defaults. -/
theorem claim10_falsy_coercions_witness :
    (Option.map LogData.body
      (endTracker sampleCfg [("id1", sampleSession)] "id1" 9
        { body := .vBool false, statusCode := .vNum 0 }).record = some .vNull) ∧
    (Option.map LogData.statusCode
      (endTracker sampleCfg [("id1", sampleSession)] "id1" 9
        { body := .vBool false, statusCode := .vNum 0 }).record
        = some (.vNum 200)) ∧
    (∃ cfg, mkTracker (.vStr "rkl_key")
        { retryAttempts := .vNum 0, retryDelay := .vNum 0 } = .ok cfg ∧
      cfg.retryAttempts = .vNum 3 ∧ cfg.retryDelay = .vNum 1000) :=
  ⟨(claim10_falsy_coercions.1 sampleCfg [("id1", sampleSession)] "id1" 9
      { body := .vBool false, statusCode := .vNum 0 } sampleSession rfl).1 rfl,
   (claim10_falsy_coercions.1 sampleCfg [("id1", sampleSession)] "id1" 9
      { body := .vBool false, statusCode := .vNum 0 } sampleSession rfl).2.2.2.2.1 rfl,
   claim10_falsy_coercions.2 (.vStr "rkl_key")
      { retryAttempts := .vNum 0, retryDelay := .vNum 0 } rfl rfl rfl⟩

end RekLog
